import Mathlib

/-!
Verification development for the AudioCaption experiment harness.

The definitions below are shallow embeddings of the control-flow and
data-handling logic of `src/runners/base_runner.py` and
`src/captioning/ignite_runners/run_structure.py`.  Machine floats are read
as exact rationals (or reals where the source computes a transcendental
power), Python exceptions become `Except` / explicit error components, and
the numpy global random generator is modelled as an abstract deterministic
state-passing generator.
-/

namespace AudioCaption

/-! ### Train/validation split (`Runner._get_dataloaders`, run_structure.py lines 55-58) -/

/-- Size of the validation sample drawn in `Runner._get_dataloaders`:
the source computes `int(len(caption_info) * (1 - data_config["train_percent"] / 100.))`,
read here as truncation of the exact rational value. -/
def val_size (n p : ℕ) : ℕ := (⌊(n : ℚ) * (1 - (p : ℚ) / 100)⌋).toNat

/-- Training indices built in `Runner._get_dataloaders` line 58:
`[idx for idx in range(len(caption_info)) if idx not in val_audio_idxs]`. -/
def train_audio_idxs (n : ℕ) (val_audio_idxs : List ℕ) : List ℕ :=
  (List.range n).filter (fun idx => decide (idx ∉ val_audio_idxs))

/-- Abstract model of the numpy global random generator used by the split:
`ofSeed` is `np.random.seed` (the resulting state is a function of the seed
alone) and `choice` is `np.random.choice(n, size, replace=False)` as a
deterministic function of the generator state. -/
structure NpRandom where
  ofSeed : ℕ → ℕ
  choice : ℕ → ℕ → ℕ → List ℕ

/-- Constructor `BaseRunner.__init__` (base_runner.py line 22): whatever the
ambient generator state `s0` was before, `np.random.seed(seed)` replaces it
with a state computed from the seed alone. -/
def runnerInit (rng : NpRandom) (_s0 : ℕ) (seed : ℕ) : ℕ := rng.ofSeed seed

/-- Random split drawn in `Runner._get_dataloaders` lines 56-58: the
validation indices are a without-replacement sample of size `val_size`
drawn from the generator state, and the training indices are the
complement. -/
def getSplit (rng : NpRandom) (state : ℕ) (n p : ℕ) : List ℕ × List ℕ :=
  let val_audio_idxs := rng.choice state n (val_size n p)
  (train_audio_idxs n val_audio_idxs, val_audio_idxs)

/-- One full run of constructor plus split: seed the generator in the
constructor, then build the split for `n` caption records and
`train_percent` `p`. -/
def runSplit (rng : NpRandom) (s0 seed n p : ℕ) : List ℕ × List ℕ :=
  getSplit rng (runnerInit rng s0 seed) n p

/-! ### Caption decoding (`BaseRunner._convert_idx2sentence`, base_runner.py lines 119-131) -/

/-- Loop of `BaseRunner._convert_idx2sentence` (lines 121-128): look every
id up in the vocabulary, stop at the first `"<end>"`, skip `"<start>"`,
and keep every other word. -/
def convertCandidate (idx2word : ℕ → String) : List ℕ → List String
  | [] => []
  | wordId :: rest =>
    let word := idx2word wordId
    if word = "<end>" then []
    else if word = "<start>" then convertCandidate idx2word rest
    else word :: convertCandidate idx2word rest

/-- Return value of `_convert_idx2sentence`: a Python list of tokens for
logographic (`zh`) output, a joined string otherwise. -/
inductive Caption where
  | tokens (l : List String)
  | sentence (s : String)
deriving DecidableEq

/-- Full `BaseRunner._convert_idx2sentence` (lines 119-131): build the
candidate token list, then space-join it unless `zh`. -/
def _convert_idx2sentence (word_ids : List ℕ) (idx2word : ℕ → String) (zh : Bool) : Caption :=
  let candidate := convertCandidate idx2word word_ids
  if zh then Caption.tokens candidate
  else Caption.sentence (String.intercalate " " candidate)

/-- Caption field written to the prediction file by `BaseRunner.evaluate`
(base_runner.py line 268): `"".join(pred[0]) if zh else pred[0]`, where
`pred[0]` is the value returned by `_convert_idx2sentence`. -/
def evalCaptionField (zh : Bool) (ids : List ℕ) (idx2word : ℕ → String) : String :=
  match _convert_idx2sentence ids idx2word zh with
  | Caption.tokens l => String.join l
  | Caption.sentence s => s

/-- Example caption vocabulary for the logographic decoding example. -/
def zhExampleVocab : ℕ → String :=
  fun i => List.getD ["<start>", "猫", "在", "睡觉", "<end>"] i "<unk>"

/-- Example caption vocabulary for the space-joined decoding example. -/
def enExampleVocab : ℕ → String :=
  fun i => List.getD ["<start>", "a", "cat", "sleeps", "<end>"] i "<unk>"

/-! ### Scheduled sampling updates (`update_ss_ratio`, run_structure.py lines 410-421) -/

/-- One exponential-mode scheduled-sampling update (run_structure.py line
418): `conf["ss_args"]["ss_ratio"] *= 0.01 ** (1.0 / total_iters)`, the
float arithmetic read over the reals. -/
noncomputable def ssStepExp (total_iters : ℕ) (r : ℝ) : ℝ :=
  r * (0.01 : ℝ) ^ ((1 : ℝ) / (total_iters : ℝ))

/-- One linear-mode scheduled-sampling update (run_structure.py lines
420-421): `conf["ss_args"]["ss_ratio"] -= (1.0 - final_ss) / total_iters`,
with no clamping of any kind. -/
def ssStepLin (total_iters : ℕ) (final_ss : ℚ) (r : ℚ) : ℚ :=
  r - (1 - final_ss) / (total_iters : ℚ)

/-! ### Checkpointing (`save_model`, run_structure.py lines 523-534) -/

/-- Improvement directions of the saving criterion (the configurable
`improvecriterion`). -/
inductive Direction where
  | max
  | min
deriving DecidableEq

/-- Strict improvement of score `a` over score `b` in the configured
direction. -/
def strictlyBetter (dir : Direction) (a b : ℚ) : Bool :=
  match dir with
  | Direction.max => decide (b < a)
  | Direction.min => decide (a < b)

/-- Modelled from the spec: `train_util.criterion_improver` lives in
`utils/train_util.py`, which is not under `src/`.  Per the spec the
checkpoint manager "tracks the best-seen score" and writes a best snapshot
"whenever the current score improves over all previously seen scores for
this run (improvement direction — max or min)" — so a score improves on the
tracked best, and any score improves when no score has been seen yet. -/
def improves (dir : Direction) (score : ℚ) (best : Option ℚ) : Bool :=
  match best with
  | none => true
  | some b => strictlyBetter dir score b

/-- Modelled from the spec: one call of the `crtrn_imprvd` closure built by
`train_util.criterion_improver` — report whether the score improved on the
tracked best and update the tracked best accordingly. -/
def criterionImproverStep (dir : Direction) (best : Option ℚ) (score : ℚ) :
    Bool × Option ℚ :=
  if improves dir score best then (true, some score) else (false, best)

/-- The snapshot bundle built by `save_model` (run_structure.py lines
525-531): model parameters, optimizer state, scheduler state and both
vocabularies' id-to-token tables. -/
structure Checkpoint (M O S V : Type) where
  model : M
  optimizer : O
  lr_scheduler : S
  vocabulary : V
  structure_vocabulary : V

/-- Outcome of one `save_model` call: the contents of `best.pth` (written
only on improvement), the contents of `last.pth` (written unconditionally)
and the updated tracked best. -/
structure SaveResult (M O S V : Type) where
  best_file : Option (Checkpoint M O S V)
  last_file : Option (Checkpoint M O S V)
  best_after : Option ℚ

/-- The `save_model` handler run on every evaluator epoch completion
(run_structure.py lines 523-534): build the dump, write `best.pth` when
`crtrn_imprvd(engine.state.metrics["score"])` holds, always write
`last.pth`. -/
def save_model {M O S V : Type} (model : M) (opt : O) (sched : S) (vocab svocab : V)
    (dir : Direction) (best : Option ℚ) (score : ℚ) : SaveResult M O S V :=
  let dump : Checkpoint M O S V := ⟨model, opt, sched, vocab, svocab⟩
  let step := criterionImproverStep dir best score
  ⟨if step.1 then some dump else none, some dump, step.2⟩

/-- Per-evaluation-epoch snapshot-write flags `(best_written, last_written)`
over the run's score sequence, threading the tracked best through
`save_model`. -/
def runEvalEpochs (dir : Direction) : Option ℚ → List ℚ → List (Bool × Bool)
  | _, [] => []
  | best, s :: rest =>
    let r := save_model () () () () () dir best s
    (r.best_file.isSome, r.last_file.isSome) :: runEvalEpochs dir r.best_after rest

/-- The tracked best after processing a score sequence. -/
def bestState (dir : Direction) : Option ℚ → List ℚ → Option ℚ
  | best, [] => best
  | best, s :: rest => bestState dir (criterionImproverStep dir best s).2 rest

/-! ### Standalone score report (`BaseRunner.evaluate`, base_runner.py lines 305-342) -/

/-- Scores produced by the individual scorers of `BaseRunner.evaluate`:
`Bleu(n=4)` yields one score per n-gram order, the others one each. -/
structure EvalScores where
  bleu : ℕ → ℚ
  rouge : ℚ
  cider : ℚ
  meteor : ℚ
  spice : ℚ
  sentbert : ℚ
  diversity : ℚ

/-- The sequence of `f.write` calls of `BaseRunner.evaluate` lines 305-340,
one `(label, value)` pair per written line: four Bleu lines from a loop,
then ROUGE and CIDEr, then Meteor and Spice only when not `zh`, then
SentenceBert and Diversity. -/
def scoresReport (zh : Bool) (s : EvalScores) : List (String × ℚ) :=
  let f : List (String × ℚ) := []
  let f := (List.range 4).foldl (fun f n => f ++ [("Bleu-" ++ toString (n + 1), s.bleu n)]) f
  let f := f ++ [("ROUGE", s.rouge)]
  let f := f ++ [("CIDEr", s.cider)]
  let f := if zh then f else f ++ [("Meteor", s.meteor), ("Spice", s.spice)]
  let f := f ++ [("SentenceBert", s.sentbert)]
  let f := f ++ [("Diversity", s.diversity)]
  f

/-- Names of the scorer invocations of `BaseRunner.evaluate`, in source
order; Meteor and Spice are invoked only for non-logographic corpora. -/
def scorerNames (zh : Bool) : List String :=
  ["Bleu", "ROUGE", "CIDEr"] ++ (if zh then [] else ["Meteor", "Spice"]) ++
    ["SentenceBert", "Diversity"]

/-- Report lines written from one scorer's result: the Bleu scorer writes
four lines, every other scorer one. -/
def scorerLabels : String → List String
  | "Bleu" => ["Bleu-1", "Bleu-2", "Bleu-3", "Bleu-4"]
  | n => [n]

/-- Success of one scorer invocation. -/
def exceptOk (e : Except Unit ℚ) : Bool :=
  match e with
  | Except.ok _ => true
  | Except.error _ => false

/-- Sequential scorer execution of `BaseRunner.evaluate` lines 305-342:
the source wraps no scorer call in any exception handling, so an uncaught
scorer failure aborts the whole method — no later scorer runs or writes.
The result is the list of report lines actually written together with the
name of the scorer whose failure aborted the run, if any. -/
def runScorers (outcome : String → Except Unit ℚ) :
    List String → List (String × ℚ) × Option String
  | [] => ([], none)
  | name :: rest =>
    match outcome name with
    | Except.error _ => ([], some name)
    | Except.ok v =>
      let r := runScorers outcome rest
      ((scorerLabels name).map (fun l => (l, v)) ++ r.1, r.2)

/-- The whole scoring section of `BaseRunner.evaluate` under a given
assignment of per-scorer outcomes. -/
def scoringRun (zh : Bool) (outcome : String → Except Unit ℚ) :
    List (String × ℚ) × Option String :=
  runScorers outcome (scorerNames zh)

/-- Concrete outcome assignment in which only the Meteor scorer fails (for
example because its external tool is missing). -/
def meteorFailOutcome : String → Except Unit ℚ :=
  fun name => if name = "Meteor" then Except.error () else Except.ok 0

/-! ### Learning-rate scheduling (`update_lr`, run_structure.py lines 477-488) -/

/-- Scheduler class names attached to the evaluator's epoch-completed event
(run_structure.py line 485). -/
def lr_update_schedulers : List String :=
  ["StepLR", "ReduceLROnPlateau", "ExponentialLR", "MultiStepLR"]

/-- The two engine events a scheduler step can be attached to. -/
inductive TrainEvent where
  | evaluatorEpochCompleted
  | trainerIterationStarted
deriving DecidableEq

/-- Event the scheduler step is attached to (run_structure.py lines
485-488): epoch completion of the evaluator for the four listed scheduler
classes, iteration start of the trainer for every other scheduler. -/
def lrStepEvent (schedulerName : String) : TrainEvent :=
  if schedulerName ∈ lr_update_schedulers then TrainEvent.evaluatorEpochCompleted
  else TrainEvent.trainerIterationStarted

/-- Whether a scheduler is plateau-sensitive, i.e. reduces the rate when a
validation metric plateaus. -/
def plateauSensitive (name : String) : Bool := decide (name = "ReduceLROnPlateau")

/-- A performed scheduler step: with the validation metric or without. -/
inductive LrStep where
  | plain
  | withMetric (v : ℚ)
deriving DecidableEq

/-- The `update_lr` handler (run_structure.py lines 477-483): a
`ReduceLROnPlateau` scheduler asserts a metric is supplied and steps with
its value; every other scheduler steps plainly. -/
def update_lr (name : String) (metric : Option ℚ) : Except String LrStep :=
  if name = "ReduceLROnPlateau" then
    match metric with
    | none => Except.error "need validation metric for ReduceLROnPlateau"
    | some v => Except.ok (LrStep.withMetric v)
  else Except.ok LrStep.plain

/-! ### The `BaseRunner.sample` unbound names (base_runner.py lines 136-198) -/

/-- Python errors relevant to the embedded fragment. -/
inductive PyError where
  | nameError (name : String)
deriving DecidableEq

/-- Parameters of `BaseRunner.sample` (base_runner.py lines 136-141). -/
def sampleParams : List String :=
  ["self", "experiment_path", "feature_file", "predict_scp", "output", "kwargs"]

/-- Local names assigned in `BaseRunner.sample` before the read of
`max_length` on line 167 (the import and assignments of lines 144-165). -/
def sampleLocalsBefore : List String :=
  ["tp", "dump", "model", "scaler", "config", "vocabulary", "zh", "dataset", "dataloader"]

/-- Python name lookup: reading a name bound in the scope succeeds and
reading an unbound name raises `NameError`. -/
def readName (scope : List String) (x : String) : Except PyError Unit :=
  if x ∈ scope then Except.ok () else Except.error (PyError.nameError x)

/-- One iteration of the `_sample` closure's loop over decoded sequences
(base_runner.py lines 186-191): a list caption assigns `sentence`, a string
caption leaves it untouched, and the row write then reads `sentence` —
raising `NameError` when no iteration has assigned it yet.  Returns the row
written and the value `sentence` holds afterwards. -/
def sampleLoopStep (sentence : Option String) (caption : Caption) :
    Except PyError (String × Option String) :=
  let sentence' :=
    match caption with
    | Caption.tokens l => some (String.intercalate " " l)
    | Caption.sentence _ => sentence
  match sentence' with
  | some s => Except.ok (s, some s)
  | none => Except.error (PyError.nameError "sentence")

/-- The `_sample` loop over all decoded sequences, starting from an
unassigned `sentence`; an error aborts the loop.  Returns the rows written
and the raised error, if any. -/
def sampleLoop (idx2word : ℕ → String) (zh : Bool) (sentence : Option String) :
    List (List ℕ) → List String × Option PyError
  | [] => ([], none)
  | seq :: rest =>
    match sampleLoopStep sentence (_convert_idx2sentence seq idx2word zh) with
    | Except.error e => ([], some e)
    | Except.ok (row, sentence') =>
      let r := sampleLoop idx2word zh sentence' rest
      (row :: r.1, r.2)

/-- `BaseRunner.sample` (base_runner.py lines 136-198): the statements up
to line 165 bind the names of `sampleLocalsBefore`; line 167 then evaluates
`max_length is None`, reading `max_length`, before the output file is even
opened on line 171.  Returns the caption rows written and the raised
error, if any. -/
def sample (zh : Bool) (seqs : List (List ℕ)) (idx2word : ℕ → String) :
    List String × Option PyError :=
  match readName (sampleParams ++ sampleLocalsBefore) "max_length" with
  | Except.error e => ([], some e)
  | Except.ok _ => sampleLoop idx2word zh none seqs

end AudioCaption

namespace AudioCaption

/-- Halting behaviour of the decoding loop: the candidate list is the
vocabulary image of the ids strictly before the first end-sentinel, with
start-sentinels filtered out. -/
theorem convertCandidate_spec (f : ℕ → String) (ids : List ℕ) :
    convertCandidate f ids =
      ((ids.takeWhile fun i => f i != "<end>").map f).filter (fun w => w != "<start>") := by
  induction ids with
  | nil => rfl
  | cons wid rest ih =>
    by_cases hend : f wid = "<end>"
    · simp [convertCandidate, hend, List.takeWhile_cons]
    · by_cases hstart : f wid = "<start>"
      · simp [convertCandidate, hend, hstart, List.takeWhile_cons, ih]
      · simp [convertCandidate, hend, hstart, List.takeWhile_cons, ih]

/-- C2: decoding an id sequence halts at the first end-sentinel, never
includes the start-sentinel, and produces at most as many tokens as there
are input ids. -/
theorem C2_decode (f : ℕ → String) (ids : List ℕ) :
    (convertCandidate f ids).length ≤ ids.length ∧
    "<start>" ∉ convertCandidate f ids ∧
    convertCandidate f ids =
      ((ids.takeWhile fun i => f i != "<end>").map f).filter (fun w => w != "<start>") := by
  refine ⟨?_, ?_, convertCandidate_spec f ids⟩
  · calc (convertCandidate f ids).length
        = (((ids.takeWhile fun i => f i != "<end>").map f).filter
            (fun w => w != "<start>")).length := by rw [convertCandidate_spec]
      _ ≤ ((ids.takeWhile fun i => f i != "<end>").map f).length :=
          List.length_filter_le _ _
      _ = (ids.takeWhile fun i => f i != "<end>").length := List.length_map _ _
      _ ≤ ids.length := (List.takeWhile_sublist _).length_le
  · rw [convertCandidate_spec]
    intro hmem
    have := List.of_mem_filter hmem
    simp at this

/-- C7: for logographic (`zh`) output the persisted caption is the token
list concatenated with no separator, and otherwise it is the tokens joined
by single spaces; in particular the tokens `["猫","在","睡觉"]` decode to
`"猫在睡觉"` and `["a","cat","sleeps"]` decode to `"a cat sleeps"`. -/
theorem C7_join :
    (∀ (ids : List ℕ) (f : ℕ → String),
       evalCaptionField true ids f = String.join (convertCandidate f ids) ∧
       evalCaptionField false ids f = String.intercalate " " (convertCandidate f ids)) ∧
    evalCaptionField true [1, 2, 3] zhExampleVocab = "猫在睡觉" ∧
    evalCaptionField false [1, 2, 3] enExampleVocab = "a cat sleeps" := by
  refine ⟨fun ids f => ⟨rfl, rfl⟩, ?_, ?_⟩ <;> rfl

/-- C1: when the validation indices are a without-replacement sample (no
duplicates, all below the record count) of size `val_size`, the training
indices are exactly the complement, the two index sets are disjoint, their
union is the full record index set, their lengths sum to the record count,
and the sample size is the truncation of `total * (1 - train_percent/100)`
and never exceeds the record count. -/
theorem C1_split (n p : ℕ) (val : List ℕ)
    (hval : ∀ i ∈ val, i < n) (hnd : val.Nodup) (hlen : val.length = val_size n p) :
    (∀ i ∈ train_audio_idxs n val, i ∉ val) ∧
    (∀ i, i < n ↔ (i ∈ train_audio_idxs n val ∨ i ∈ val)) ∧
    (∀ i, i ∈ train_audio_idxs n val ↔ (i < n ∧ i ∉ val)) ∧
    (train_audio_idxs n val).length + val.length = n ∧
    val.length = val_size n p ∧ val_size n p ≤ n := by
  have hchar : ∀ i, i ∈ train_audio_idxs n val ↔ (i < n ∧ i ∉ val) := by
    intro i
    simp [train_audio_idxs, List.mem_filter, List.mem_range]
  have hnd_train : (train_audio_idxs n val).Nodup := (List.nodup_range n).filter _
  have hsubv : val.toFinset ⊆ Finset.range n := by
    intro i hi
    exact Finset.mem_range.mpr (hval i (List.mem_toFinset.mp hi))
  have htf : (train_audio_idxs n val).toFinset = Finset.range n \ val.toFinset := by
    ext i
    simp only [List.mem_toFinset, hchar, Finset.mem_sdiff, Finset.mem_range]
  have hlen_sum : (train_audio_idxs n val).length + val.length = n := by
    rw [← List.toFinset_card_of_nodup hnd_train, ← List.toFinset_card_of_nodup hnd, htf,
      Finset.card_sdiff hsubv]
    have hle : val.toFinset.card ≤ (Finset.range n).card := Finset.card_le_card hsubv
    rw [Finset.card_range] at hle ⊢
    omega
  refine ⟨?_, ?_, hchar, hlen_sum, hlen, ?_⟩
  · intro i hi
    exact ((hchar i).mp hi).2
  · intro i
    constructor
    · intro hi
      by_cases hv : i ∈ val
      · exact Or.inr hv
      · exact Or.inl ((hchar i).mpr ⟨hi, hv⟩)
    · rintro (hi | hi)
      · exact ((hchar i).mp hi).1
      · exact hval i hi
  · have hxle : (n : ℚ) * (1 - (p : ℚ) / 100) ≤ (n : ℚ) := by
      have h0 : (0 : ℚ) ≤ (n : ℚ) := by positivity
      have h1 : (0 : ℚ) ≤ (p : ℚ) / 100 := by positivity
      nlinarith
    have hfl : ⌊(n : ℚ) * (1 - (p : ℚ) / 100)⌋ ≤ (n : ℤ) := by
      calc ⌊(n : ℚ) * (1 - (p : ℚ) / 100)⌋ ≤ ⌊(n : ℚ)⌋ := Int.floor_le_floor hxle
        _ = (n : ℤ) := Int.floor_natCast n
    exact Int.toNat_le.mpr hfl

/-- Evaluation of the validation sample size at 5 records and train
percentage 60. -/
theorem val_size_five_sixty : val_size 5 60 = 2 := by
  rw [val_size]
  norm_num
  rfl

/-- C1 witness: the split of 5 records at train percentage 60 with the
concrete sample `[1, 3]`. -/
theorem C1_witness :
    (∀ i ∈ train_audio_idxs 5 [1, 3], i ∉ ([1, 3] : List ℕ)) ∧
    (∀ i, i < 5 ↔ (i ∈ train_audio_idxs 5 [1, 3] ∨ i ∈ ([1, 3] : List ℕ))) ∧
    (∀ i, i ∈ train_audio_idxs 5 [1, 3] ↔ (i < 5 ∧ i ∉ ([1, 3] : List ℕ))) ∧
    (train_audio_idxs 5 [1, 3]).length + ([1, 3] : List ℕ).length = 5 ∧
    ([1, 3] : List ℕ).length = val_size 5 60 ∧ val_size 5 60 ≤ 5 :=
  C1_split 5 60 [1, 3] (by decide) (by decide) (by simp [val_size_five_sixty])

/-- C10: the split is deterministic given the run seed — the constructor
reseeds the generator from the configured seed, so two runs over the same
caption metadata started from arbitrary (possibly different) prior
generator states produce identical training index sets and identical
validation index sets. -/
theorem C10_seed_determinism (rng : NpRandom) (s0 s0' seed n p : ℕ) :
    (runSplit rng s0 seed n p).1 = (runSplit rng s0' seed n p).1 ∧
    (runSplit rng s0 seed n p).2 = (runSplit rng s0' seed n p).2 :=
  ⟨rfl, rfl⟩

/-- Closed form of iterating the exponential-mode update. -/
theorem ssStepExp_iterate (T : ℕ) (k : ℕ) (r : ℝ) :
    (ssStepExp T)^[k] r = r * ((0.01 : ℝ) ^ ((1 : ℝ) / (T : ℝ))) ^ k := by
  induction k with
  | zero => simp
  | succ k ih =>
    rw [Function.iterate_succ_apply', ih, ssStepExp]
    ring

/-- The per-step exponential factor compounds to exactly 0.01 over the full
iteration budget. -/
theorem ssExpFactor_pow (T : ℕ) (hT : 0 < T) :
    ((0.01 : ℝ) ^ ((1 : ℝ) / (T : ℝ))) ^ T = (0.01 : ℝ) := by
  have hT' : (T : ℝ) ≠ 0 := Nat.cast_ne_zero.mpr (Nat.pos_iff_ne_zero.mp hT)
  rw [← Real.rpow_natCast ((0.01 : ℝ) ^ ((1 : ℝ) / (T : ℝ))) T,
    ← Real.rpow_mul (by norm_num : (0 : ℝ) ≤ 0.01), one_div_mul_cancel hT',
    Real.rpow_one]

/-- Closed form of iterating the linear-mode update: an exact affine
formula with no clamping at any step. -/
theorem ssStepLin_iterate (T : ℕ) (f : ℚ) (k : ℕ) (r : ℚ) :
    (ssStepLin T f)^[k] r = r - (k : ℚ) * ((1 - f) / (T : ℚ)) := by
  induction k with
  | zero => simp
  | succ k ih =>
    rw [Function.iterate_succ_apply', ih, ssStepLin]
    push_cast
    ring

/-- C3: over a positive iteration budget `T`, iterating the
exponential-mode update `T` times multiplies the initial ratio by exactly
0.01; iterating the linear-mode update `T` times subtracts exactly
`1 - final_ratio`; and every linear step follows the unclamped affine
formula, so no floor is ever applied. -/
theorem C3_ss (T : ℕ) (hT : 0 < T) (r0 : ℝ) (f r : ℚ) :
    (ssStepExp T)^[T] r0 = r0 * 0.01 ∧
    (ssStepLin T f)^[T] r = r - (1 - f) ∧
    (∀ k : ℕ, (ssStepLin T f)^[k] r = r - (k : ℚ) * ((1 - f) / (T : ℚ))) := by
  have hT' : (T : ℚ) ≠ 0 := Nat.cast_ne_zero.mpr (Nat.pos_iff_ne_zero.mp hT)
  refine ⟨?_, ?_, fun k => ssStepLin_iterate T f k r⟩
  · rw [ssStepExp_iterate, ssExpFactor_pow T hT]
  · rw [ssStepLin_iterate]
    field_simp

/-- C3 witness: the schedule over a budget of two iterations, started from
ratio 1 with final linear ratio one half. -/
theorem C3_witness :
    0 < 2 ∧
    ((ssStepExp 2)^[2] 1 = 1 * 0.01 ∧
     (ssStepLin 2 (1 / 2))^[2] 1 = 1 - (1 - 1 / 2) ∧
     (∀ k : ℕ, (ssStepLin 2 (1 / 2))^[k] 1 = 1 - (k : ℚ) * ((1 - 1 / 2) / (2 : ℚ)))) :=
  ⟨by decide, C3_ss 2 (by decide) 1 (1 / 2) 1⟩

/-- The improvement flag reported by one criterion-improver call. -/
theorem criterionImproverStep_fst (dir : Direction) (b : Option ℚ) (s : ℚ) :
    (criterionImproverStep dir b s).1 = improves dir s b := by
  by_cases h : improves dir s b = true <;> simp [criterionImproverStep, h]

/-- Improvement against the best tracked after one more score factors into
improvement against the previous best and strict improvement over the new
score. -/
theorem improves_step (dir : Direction) (b : Option ℚ) (x s : ℚ) :
    improves dir s (criterionImproverStep dir b x).2 =
      (improves dir s b && strictlyBetter dir s x) := by
  cases b with
  | none => simp [criterionImproverStep, improves]
  | some b0 =>
    cases dir with
    | max =>
      by_cases h : b0 < x
      · have hx : improves Direction.max x (some b0) = true := by
          simp [improves, strictlyBetter, h]
        rw [criterionImproverStep, if_pos hx]
        simp only [improves, strictlyBetter]
        rw [Bool.eq_iff_iff]
        simp only [Bool.and_eq_true, decide_eq_true_eq]
        exact ⟨fun hxs => ⟨lt_trans h hxs, hxs⟩, fun hc => hc.2⟩
      · have hx : ¬ improves Direction.max x (some b0) = true := by
          simp [improves, strictlyBetter, h]
        rw [criterionImproverStep, if_neg hx]
        simp only [improves, strictlyBetter]
        rw [Bool.eq_iff_iff]
        simp only [Bool.and_eq_true, decide_eq_true_eq]
        exact ⟨fun hbs => ⟨hbs, lt_of_le_of_lt (not_lt.mp h) hbs⟩, fun hc => hc.1⟩
    | min =>
      by_cases h : x < b0
      · have hx : improves Direction.min x (some b0) = true := by
          simp [improves, strictlyBetter, h]
        rw [criterionImproverStep, if_pos hx]
        simp only [improves, strictlyBetter]
        rw [Bool.eq_iff_iff]
        simp only [Bool.and_eq_true, decide_eq_true_eq]
        exact ⟨fun hsx => ⟨lt_trans hsx h, hsx⟩, fun hc => hc.2⟩
      · have hx : ¬ improves Direction.min x (some b0) = true := by
          simp [improves, strictlyBetter, h]
        rw [criterionImproverStep, if_neg hx]
        simp only [improves, strictlyBetter]
        rw [Bool.eq_iff_iff]
        simp only [Bool.and_eq_true, decide_eq_true_eq]
        exact ⟨fun hsb => ⟨hsb, lt_of_lt_of_le hsb (not_lt.mp h)⟩, fun hc => hc.1⟩

/-- Improvement against the tracked best after a score history is strict
improvement over every score in the history (and over the initial best). -/
theorem improves_bestState (dir : Direction) (s : ℚ) :
    ∀ (pre : List ℚ) (b : Option ℚ),
      improves dir s (bestState dir b pre) =
        (improves dir s b && pre.all (fun x => strictlyBetter dir s x)) := by
  intro pre
  induction pre with
  | nil => intro b; simp [bestState]
  | cons x rest ih =>
    intro b
    rw [bestState, ih, improves_step]
    simp [Bool.and_assoc]

/-- Positional characterisation of the best-snapshot flag in a run. -/
theorem runEvalEpochs_getElem (dir : Direction) (s : ℚ) (post : List ℚ) :
    ∀ (pre : List ℚ) (b : Option ℚ),
      (runEvalEpochs dir b (pre ++ s :: post))[pre.length]? =
        some (improves dir s (bestState dir b pre), true) := by
  intro pre
  induction pre with
  | nil =>
    intro b
    by_cases h : improves dir s b = true <;>
      simp [runEvalEpochs, save_model, criterionImproverStep, bestState, h]
  | cons x pre ih =>
    intro b
    rw [List.cons_append, runEvalEpochs]
    simp only [List.length_cons, List.getElem?_cons_succ]
    rw [ih]
    rfl

/-- C4: `last.pth` is written unconditionally on every evaluation epoch and
`best.pth` exactly when the criterion improved, both holding the bundle of
model, optimizer, scheduler and both id-to-token tables; over a whole run
the best snapshot at an epoch is written iff its score strictly improves,
in the configured direction, on every earlier score. -/
theorem C4_checkpoint :
    (∀ (M O S V : Type) (m : M) (o : O) (sc : S) (v sv : V)
       (dir : Direction) (best : Option ℚ) (score : ℚ),
       (save_model m o sc v sv dir best score).last_file = some ⟨m, o, sc, v, sv⟩ ∧
       (save_model m o sc v sv dir best score).best_file =
         (if improves dir score best then some ⟨m, o, sc, v, sv⟩ else none)) ∧
    (∀ (dir : Direction) (best : Option ℚ) (scores : List ℚ) (fl : Bool × Bool),
       fl ∈ runEvalEpochs dir best scores → fl.2 = true) ∧
    (∀ (dir : Direction) (pre : List ℚ) (s : ℚ) (post : List ℚ),
       (runEvalEpochs dir none (pre ++ s :: post))[pre.length]? =
         some (pre.all (fun x => strictlyBetter dir s x), true)) := by
  refine ⟨?_, ?_, ?_⟩
  · intro M O S V m o sc v sv dir best score
    refine ⟨rfl, ?_⟩
    rw [save_model]
    simp only [criterionImproverStep_fst]
  · intro dir best scores
    induction scores generalizing best with
    | nil => intro fl h; simp [runEvalEpochs] at h
    | cons s rest ih =>
      intro fl h
      rw [runEvalEpochs] at h
      rcases List.mem_cons.mp h with h1 | h2
      · subst h1; rfl
      · exact ih _ fl h2
  · intro dir pre s post
    rw [runEvalEpochs_getElem, improves_bestState]
    simp [improves]

/-- C4 witness: a one-epoch run in the max direction with score 1. -/
theorem C4_witness :
    (true, true) ∈ runEvalEpochs Direction.max none [(1 : ℚ)] ∧
    ((true, true) : Bool × Bool).2 = true :=
  ⟨by decide, C4_checkpoint.2.1 Direction.max none [(1 : ℚ)] (true, true) (by decide)⟩

/-- C8: the standalone score report lists, in order, Bleu-1 through
Bleu-4, ROUGE, CIDEr, then Meteor and Spice exactly when the corpus is not
logographic, then SentenceBert and Diversity. -/
theorem C8_report (s : EvalScores) :
    (scoresReport false s).map Prod.fst =
      ["Bleu-1", "Bleu-2", "Bleu-3", "Bleu-4", "ROUGE", "CIDEr", "Meteor", "Spice",
        "SentenceBert", "Diversity"] ∧
    (scoresReport true s).map Prod.fst =
      ["Bleu-1", "Bleu-2", "Bleu-3", "Bleu-4", "ROUGE", "CIDEr",
        "SentenceBert", "Diversity"] := by
  exact ⟨rfl, rfl⟩

/-- C5 counterexample: with only the Meteor scorer failing on a
non-logographic corpus, the later Spice, SentenceBert and Diversity
scorers never write their report lines and the report carries no note of
the missing metric — the written lines stop at CIDEr — so a single scorer
failure does prevent the remaining scorers from completing. -/
theorem C5_counterexample :
    (scoringRun false meteorFailOutcome).1.map Prod.fst =
      ["Bleu-1", "Bleu-2", "Bleu-3", "Bleu-4", "ROUGE", "CIDEr"] ∧
    "Spice" ∉ (scoringRun false meteorFailOutcome).1.map Prod.fst ∧
    "SentenceBert" ∉ (scoringRun false meteorFailOutcome).1.map Prod.fst ∧
    "Diversity" ∉ (scoringRun false meteorFailOutcome).1.map Prod.fst := by
  decide

/-- Characterisation of the abort-on-first-failure scorer execution. -/
theorem runScorers_spec (outcome : String → Except Unit ℚ) (l : List String) :
    (runScorers outcome l).1.map Prod.fst =
      (l.takeWhile fun n => exceptOk (outcome n)).flatMap scorerLabels ∧
    (runScorers outcome l).2 = l.find? (fun n => !exceptOk (outcome n)) := by
  induction l with
  | nil => exact ⟨rfl, rfl⟩
  | cons name rest ih =>
    cases h : outcome name with
    | error e =>
      have hok : exceptOk (outcome name) = false := by rw [h]; rfl
      rw [runScorers]
      rw [h]
      constructor
      · simp [List.takeWhile_cons, hok]
      · simp [List.find?_cons, hok]
    | ok v =>
      have hok : exceptOk (outcome name) = true := by rw [h]; rfl
      rw [runScorers]
      rw [h]
      constructor
      · have hmap : ((scorerLabels name).map (fun l => (l, v))).map Prod.fst =
            scorerLabels name := by
          induction scorerLabels name with
          | nil => rfl
          | cons a t iht => simp [iht]
        simp only [List.takeWhile_cons, hok, if_true, List.flatMap_cons, List.map_append]
        rw [← ih.1, hmap]
      · simp only [List.find?_cons, hok, Bool.not_true]
        exact ih.2

/-- C5 amended: a scorer failure in the standalone evaluation is not
isolated — the report contains exactly the lines of the scorers preceding
the first failure, the first failing scorer aborts the run, and no line of
any later scorer (and no missing-metric note) is written. -/
theorem C5_amended (zh : Bool) (outcome : String → Except Unit ℚ) :
    (scoringRun zh outcome).1.map Prod.fst =
      ((scorerNames zh).takeWhile fun n => exceptOk (outcome n)).flatMap scorerLabels ∧
    (scoringRun zh outcome).2 = (scorerNames zh).find? (fun n => !exceptOk (outcome n)) :=
  runScorers_spec outcome (scorerNames zh)

/-- C6 counterexample: `StepLR` is not plateau-sensitive, yet its step is
attached to the evaluator's epoch-completed event rather than to each
training iteration start — so per-evaluation-epoch stepping does not hold
exactly for the plateau-sensitive scheduler. -/
theorem C6_counterexample :
    lrStepEvent "StepLR" = TrainEvent.evaluatorEpochCompleted ∧
    plateauSensitive "StepLR" = false := by
  decide

/-- C6 amended: the scheduler is stepped once per completed evaluation
epoch exactly when its class name is one of StepLR, ReduceLROnPlateau,
ExponentialLR, MultiStepLR, and once per training iteration start
otherwise; of these only ReduceLROnPlateau consumes the scoring metric
(and requires one), every non-plateau scheduler stepping plainly. -/
theorem C6_amended (name : String) :
    (lrStepEvent name = TrainEvent.evaluatorEpochCompleted ↔
      name ∈ lr_update_schedulers) ∧
    (lrStepEvent name = TrainEvent.trainerIterationStarted ↔
      name ∉ lr_update_schedulers) ∧
    (∀ v : ℚ, update_lr "ReduceLROnPlateau" (some v) =
      Except.ok (LrStep.withMetric v)) ∧
    update_lr "ReduceLROnPlateau" none =
      Except.error "need validation metric for ReduceLROnPlateau" ∧
    (plateauSensitive name = false → ∀ m, update_lr name m = Except.ok LrStep.plain) := by
  refine ⟨?_, ?_, fun v => rfl, rfl, ?_⟩
  · by_cases h : name ∈ lr_update_schedulers <;> simp [lrStepEvent, h]
  · by_cases h : name ∈ lr_update_schedulers <;> simp [lrStepEvent, h]
  · intro hp m
    have hne : ¬ name = "ReduceLROnPlateau" := by
      intro he
      rw [he] at hp
      simp [plateauSensitive] at hp
    simp [update_lr, hne]

/-- C6 witness: the amended claim applied to the StepLR scheduler, whose
plateau-insensitive step consumes no metric. -/
theorem C6_witness :
    plateauSensitive "StepLR" = false ∧
    update_lr "StepLR" none = Except.ok LrStep.plain :=
  ⟨by decide, (C6_amended "StepLR").2.2.2.2 (by decide) none⟩

/-- C9: `max_length` is neither a parameter of `BaseRunner.sample` nor a
local assigned before its read on line 167, so for every input `sample`
raises `NameError` on `max_length` having written no caption row; and in
the `_sample` loop, any decoded caption that is a string rather than a
list reaches the row write with `sentence` unassigned in that iteration,
raising `NameError` on `sentence`. -/
theorem C9_sample_name_error :
    ("max_length" ∉ sampleParams ∧ "max_length" ∉ sampleLocalsBefore) ∧
    (∀ (zh : Bool) (seqs : List (List ℕ)) (idx2word : ℕ → String),
       sample zh seqs idx2word = ([], some (PyError.nameError "max_length"))) ∧
    (∀ s : String, sampleLoopStep none (Caption.sentence s) =
       Except.error (PyError.nameError "sentence")) := by
  refine ⟨by decide, fun zh seqs idx2word => ?_, fun s => rfl⟩
  rfl

end AudioCaption
